import Mathlib

namespace SoloLeveling

/-- Embedding of `next_level_exp` from `src/main.py`:
`int(100 * (level ** 1.5))` read with exact real arithmetic, i.e.
`⌊100 · level^(3/2)⌋`, which equals `Nat.sqrt (10000 * level ^ 3)`. -/
def next_level_exp (level : ℕ) : ℕ :=
  Nat.sqrt (10000 * level ^ 3)

lemma next_level_exp_eq (level a : ℕ) (h1 : a * a ≤ 10000 * level ^ 3)
    (h2 : 10000 * level ^ 3 < (a + 1) * (a + 1)) : next_level_exp level = a :=
  (Nat.eq_sqrt.mpr ⟨h1, h2⟩).symm

lemma next_level_exp_one : next_level_exp 1 = 100 :=
  next_level_exp_eq 1 100 (by norm_num) (by norm_num)

lemma next_level_exp_two : next_level_exp 2 = 282 :=
  next_level_exp_eq 2 282 (by norm_num) (by norm_num)

lemma next_level_exp_three : next_level_exp 3 = 519 :=
  next_level_exp_eq 3 519 (by norm_num) (by norm_num)

lemma next_level_exp_zero : next_level_exp 0 = 0 := by
  simp [next_level_exp]

lemma next_level_exp_ge (level : ℕ) (h : 1 ≤ level) : 100 ≤ next_level_exp level := by
  have hp : 1 ≤ level ^ 3 := Nat.one_le_pow 3 level h
  have h1 : 10000 ≤ 10000 * level ^ 3 := by nlinarith
  have h2 : Nat.sqrt 10000 = 100 := (Nat.eq_sqrt.mpr (by norm_num)).symm
  calc (100 : ℕ) = Nat.sqrt 10000 := h2.symm
    _ ≤ Nat.sqrt (10000 * level ^ 3) := Nat.sqrt_le_sqrt h1

/-- Embedding of the level-up `while` loop shared by the three handlers in
`src/main.py` (`while new_exp >= next_level_exp(level): new_exp -= ...;
level += 1; leveled_up = True`). `exp` is `ℤ` because Python integers are
unbounded and may be negative. -/
def levelLoop (level : ℕ) (exp : ℤ) (leveledUp : Bool) : ℕ × ℤ × Bool :=
  if h : (next_level_exp level : ℤ) ≤ exp then
    levelLoop (level + 1) (exp - (next_level_exp level : ℤ)) true
  else
    (level, exp, leveledUp)
termination_by 2 * exp.toNat + 1 - min level 1
decreasing_by
  by_cases h0 : level = 0
  · subst h0
    rw [next_level_exp_zero] at h ⊢
    push_cast at h ⊢
    omega
  · have h1 : 1 ≤ level := Nat.one_le_iff_ne_zero.mpr h0
    have hreq : (1 : ℤ) ≤ (next_level_exp level : ℤ) := by
      exact_mod_cast le_trans (by norm_num) (next_level_exp_ge level h1)
    omega

lemma levelLoop_step (level : ℕ) (exp : ℤ) (b : Bool)
    (h : (next_level_exp level : ℤ) ≤ exp) :
    levelLoop level exp b = levelLoop (level + 1) (exp - (next_level_exp level : ℤ)) true := by
  rw [levelLoop]
  exact dif_pos h

lemma levelLoop_done (level : ℕ) (exp : ℤ) (b : Bool)
    (h : exp < (next_level_exp level : ℤ)) :
    levelLoop level exp b = (level, exp, b) := by
  rw [levelLoop]
  exact dif_neg (not_le.mpr h)

/-- The levels the level-up loop passes through (the levels `L` whose
requirement `next_level_exp L` gets consumed), used to state the
conservation property of the Leveling Engine. -/
def levelsPassed (level : ℕ) (exp : ℤ) : List ℕ :=
  if h : (next_level_exp level : ℤ) ≤ exp then
    level :: levelsPassed (level + 1) (exp - (next_level_exp level : ℤ))
  else
    []
termination_by 2 * exp.toNat + 1 - min level 1
decreasing_by
  by_cases h0 : level = 0
  · subst h0
    rw [next_level_exp_zero] at h ⊢
    push_cast at h ⊢
    omega
  · have h1 : 1 ≤ level := Nat.one_le_iff_ne_zero.mpr h0
    have hreq : (1 : ℤ) ≤ (next_level_exp level : ℤ) := by
      exact_mod_cast le_trans (by norm_num) (next_level_exp_ge level h1)
    omega

lemma levelsPassed_step (level : ℕ) (exp : ℤ)
    (h : (next_level_exp level : ℤ) ≤ exp) :
    levelsPassed level exp =
      level :: levelsPassed (level + 1) (exp - (next_level_exp level : ℤ)) := by
  rw [levelsPassed]
  exact dif_pos h

lemma levelsPassed_done (level : ℕ) (exp : ℤ)
    (h : exp < (next_level_exp level : ℤ)) :
    levelsPassed level exp = [] := by
  rw [levelsPassed]
  exact dif_neg (not_le.mpr h)

/-- The level-up loop exactly as inlined in `daily_checkin`
(`src/main.py`, the `while new_exp >= next_level_exp(level)` loop). -/
def checkinLevelLoop (level : ℕ) (exp : ℤ) (leveledUp : Bool) : ℕ × ℤ × Bool :=
  if h : (next_level_exp level : ℤ) ≤ exp then
    checkinLevelLoop (level + 1) (exp - (next_level_exp level : ℤ)) true
  else
    (level, exp, leveledUp)
termination_by 2 * exp.toNat + 1 - min level 1
decreasing_by
  by_cases h0 : level = 0
  · subst h0
    rw [next_level_exp_zero] at h ⊢
    push_cast at h ⊢
    omega
  · have h1 : 1 ≤ level := Nat.one_le_iff_ne_zero.mpr h0
    have hreq : (1 : ℤ) ≤ (next_level_exp level : ℤ) := by
      exact_mod_cast le_trans (by norm_num) (next_level_exp_ge level h1)
    omega

/-- The level-up loop exactly as inlined in `log_workout`
(`src/main.py`, the `while new_exp >= next_level_exp(level)` loop). -/
def workoutLevelLoop (level : ℕ) (exp : ℤ) (leveledUp : Bool) : ℕ × ℤ × Bool :=
  if h : (next_level_exp level : ℤ) ≤ exp then
    workoutLevelLoop (level + 1) (exp - (next_level_exp level : ℤ)) true
  else
    (level, exp, leveledUp)
termination_by 2 * exp.toNat + 1 - min level 1
decreasing_by
  by_cases h0 : level = 0
  · subst h0
    rw [next_level_exp_zero] at h ⊢
    push_cast at h ⊢
    omega
  · have h1 : 1 ≤ level := Nat.one_le_iff_ne_zero.mpr h0
    have hreq : (1 : ℤ) ≤ (next_level_exp level : ℤ) := by
      exact_mod_cast le_trans (by norm_num) (next_level_exp_ge level h1)
    omega

/-- The level-up loop exactly as inlined in `complete_quest`
(`src/main.py`, the `while new_exp >= next_level_exp(level)` loop). -/
def questLevelLoop (level : ℕ) (exp : ℤ) (leveledUp : Bool) : ℕ × ℤ × Bool :=
  if h : (next_level_exp level : ℤ) ≤ exp then
    questLevelLoop (level + 1) (exp - (next_level_exp level : ℤ)) true
  else
    (level, exp, leveledUp)
termination_by 2 * exp.toNat + 1 - min level 1
decreasing_by
  by_cases h0 : level = 0
  · subst h0
    rw [next_level_exp_zero] at h ⊢
    push_cast at h ⊢
    omega
  · have h1 : 1 ≤ level := Nat.one_le_iff_ne_zero.mpr h0
    have hreq : (1 : ℤ) ≤ (next_level_exp level : ℤ) := by
      exact_mod_cast le_trans (by norm_num) (next_level_exp_ge level h1)
    omega

lemma checkinLevelLoop_eq (level : ℕ) (exp : ℤ) (b : Bool) :
    checkinLevelLoop level exp b = levelLoop level exp b := by
  induction level, exp, b using checkinLevelLoop.induct with
  | case1 level exp b hc ih =>
    rw [checkinLevelLoop, levelLoop]
    rw [dif_pos hc, dif_pos hc]
    exact ih
  | case2 level exp b hc =>
    rw [checkinLevelLoop, levelLoop]
    rw [dif_neg hc, dif_neg hc]

lemma workoutLevelLoop_eq (level : ℕ) (exp : ℤ) (b : Bool) :
    workoutLevelLoop level exp b = levelLoop level exp b := by
  induction level, exp, b using workoutLevelLoop.induct with
  | case1 level exp b hc ih =>
    rw [workoutLevelLoop, levelLoop]
    rw [dif_pos hc, dif_pos hc]
    exact ih
  | case2 level exp b hc =>
    rw [workoutLevelLoop, levelLoop]
    rw [dif_neg hc, dif_neg hc]

lemma questLevelLoop_eq (level : ℕ) (exp : ℤ) (b : Bool) :
    questLevelLoop level exp b = levelLoop level exp b := by
  induction level, exp, b using questLevelLoop.induct with
  | case1 level exp b hc ih =>
    rw [questLevelLoop, levelLoop]
    rw [dif_pos hc, dif_pos hc]
    exact ih
  | case2 level exp b hc =>
    rw [questLevelLoop, levelLoop]
    rw [dif_neg hc, dif_neg hc]

/-- A hunter document as created by `create_hunter` in `src/main.py` and
mutated by the other handlers; only the fields the leveling, streak and
check-in logic touches are modelled. Timestamps are modelled at calendar-day
granularity: a date is an integer counting UTC days, so `last_checkin`
stores the UTC day of the last check-in. -/
structure Hunter where
  level : ℕ
  exp : ℤ
  streak : ℤ
  last_checkin : Option ℤ
deriving DecidableEq

/-- The hunter document inserted by `create_hunter` (`POST /api/hunters`). -/
def create_hunter : Hunter :=
  ⟨1, 0, 0, none⟩

/-- The hunter invariant stated by the spec and by the `Hunter` schema in
`src/schemas.py` (`level ≥ 1`, `exp ≥ 0`) together with the
post-normalization bound `exp < required(level)`. -/
def hunterInvariant (h : Hunter) : Prop :=
  1 ≤ h.level ∧ 0 ≤ h.exp ∧ h.exp < (next_level_exp h.level : ℤ)

instance (h : Hunter) : Decidable (hunterInvariant h) := by
  unfold hunterInvariant
  infer_instance

/-- The `checkin` document inserted by `daily_checkin` (the fields the
claims are about: the check-in day and `streak_after`). -/
structure CheckinRec where
  date : ℤ
  streak_after : ℤ
deriving DecidableEq

/-- The JSON body returned by `daily_checkin`. -/
inductive CheckinResult where
  | alreadyCheckedIn (streak : ℤ) (level : ℕ) (exp : ℤ)
  | checkinComplete (exp_gain streak : ℤ) (level : ℕ) (exp : ℤ) (leveled_up : Bool)
deriving DecidableEq

/-- Embedding of the body of `daily_checkin` (`POST /api/checkin`) from
`src/main.py`, after the hunter was found. `today` is the current UTC day.
Returns the stored hunter after the request, the `checkin` record inserted
(if any), and the response. -/
def daily_checkin (h : Hunter) (today : ℤ) : Hunter × Option CheckinRec × CheckinResult :=
  let last_date : Option ℤ := h.last_checkin
  if last_date = some today then
    (h, none, CheckinResult.alreadyCheckedIn h.streak h.level h.exp)
  else
    let new_streak : ℤ :=
      match h.last_checkin with
      | none => 1
      | some d => if today - d = 1 then h.streak + 1 else 1
    let exp_gain : ℤ := 10 + min new_streak 20
    let r := checkinLevelLoop h.level (h.exp + exp_gain) false
    (⟨r.1, r.2.1, new_streak, some today⟩,
     some ⟨today, new_streak⟩,
     CheckinResult.checkinComplete exp_gain new_streak r.1 r.2.1 r.2.2)

/-- Embedding of the EXP computation in `log_workout`:
`int(payload.minutes * {"easy": 1.0, "normal": 1.5, "hard": 2.0}.get(difficulty, 1.5))`.
Python `int()` truncates toward zero, so multiplying by 1.5 and truncating
is `Int.tdiv (3 * minutes) 2`. -/
def workout_exp_gain (minutes : ℤ) (difficulty : String) : ℤ :=
  if difficulty = "easy" then minutes
  else if difficulty = "hard" then 2 * minutes
  else Int.tdiv (3 * minutes) 2

/-- The `minutes` range declared on the `Workout` collection schema in
`src/schemas.py`: `Field(..., ge=1, le=300)`. -/
def workoutMinutesValid (minutes : ℤ) : Prop :=
  1 ≤ minutes ∧ minutes ≤ 300

instance (m : ℤ) : Decidable (workoutMinutesValid m) := by
  unfold workoutMinutesValid
  infer_instance

/-- The `workout` document inserted by `log_workout` (the fields the claims
are about). -/
structure WorkoutRec where
  minutes : ℤ
  difficulty : String
  exp_awarded : ℤ
deriving DecidableEq

/-- The JSON body returned by `log_workout`. -/
structure LogWorkoutResponse where
  exp_gain : ℤ
  level : ℕ
  exp : ℤ
  leveled_up : Bool
deriving DecidableEq

/-- Embedding of the body of `log_workout` (`POST /api/workouts`) from
`src/main.py`, after the hunter was found. The request model
`LogWorkoutRequest` declares `minutes: int` with no range bound, so every
integer `minutes` reaches this body. Returns the stored hunter after the
request, the `workout` record inserted, and the response. -/
def log_workout (h : Hunter) (minutes : ℤ) (difficulty : String) :
    Hunter × WorkoutRec × LogWorkoutResponse :=
  let exp_gain := workout_exp_gain minutes difficulty
  let r := workoutLevelLoop h.level (h.exp + exp_gain) false
  (⟨r.1, r.2.1, h.streak, h.last_checkin⟩,
   ⟨minutes, difficulty, exp_gain⟩,
   ⟨exp_gain, r.1, r.2.1, r.2.2⟩)

/-- A quest document as stored in the `quest` collection (the fields
`complete_quest` reads and writes). -/
structure Quest where
  exp_reward : ℤ
  completed : Bool
deriving DecidableEq

/-- The outcome of `complete_quest`: either a response body or the
`HTTPException` raised at the corresponding point of the handler. -/
inductive QuestOutcome where
  | questNotFound
  | alreadyCompleted (reward : ℤ)
  | invalidUserId
  | hunterNotFound
  | questCompleted (reward : ℤ) (level : ℕ) (exp : ℤ) (leveled_up : Bool)
deriving DecidableEq

/-- Embedding of `complete_quest` (`POST /api/quests/complete`) from
`src/main.py`. `quest` is the stored quest for `(user_id, date)` if any,
`uid_parses` says whether `ObjectId(payload.user_id)` parses, and `hunter`
is the stored hunter if any. Returns the stored quest after the request,
the stored hunter after the request, and the outcome. The quest is marked
completed before the hunter is looked up, exactly as in the source. -/
def complete_quest (quest : Option Quest) (uid_parses : Bool) (hunter : Option Hunter) :
    Option Quest × Option Hunter × QuestOutcome :=
  match quest with
  | none => (none, hunter, QuestOutcome.questNotFound)
  | some q =>
    if q.completed then
      (some q, hunter, QuestOutcome.alreadyCompleted q.exp_reward)
    else
      let q2 : Quest := ⟨q.exp_reward, true⟩
      if uid_parses then
        match hunter with
        | none => (some q2, none, QuestOutcome.hunterNotFound)
        | some h =>
          let reward := q.exp_reward
          let r := questLevelLoop h.level (h.exp + reward) false
          (some q2, some ⟨r.1, r.2.1, h.streak, h.last_checkin⟩,
           QuestOutcome.questCompleted reward r.1 r.2.1 r.2.2)
      else
        (some q2, hunter, QuestOutcome.invalidUserId)

/-- The difficulty multiplier table as written in the spec (easy = 1.0,
normal = 1.5, hard = 2.0, default 1.5 for unrecognized difficulties),
as an exact rational. -/
def specMultiplier (difficulty : String) : ℚ :=
  if difficulty = "easy" then 1
  else if difficulty = "hard" then 2
  else 3 / 2

lemma levelLoop_spec (level : ℕ) (exp : ℤ) (b : Bool) :
    0 ≤ exp →
    0 ≤ (levelLoop level exp b).2.1 ∧
    (levelLoop level exp b).2.1 < (next_level_exp (levelLoop level exp b).1 : ℤ) ∧
    exp = (levelLoop level exp b).2.1 +
      ((levelsPassed level exp).map (fun L => (next_level_exp L : ℤ))).sum := by
  induction level, exp, b using levelLoop.induct with
  | case1 level exp b hc ih =>
    intro h0
    have hrec := ih (by omega)
    rw [levelLoop_step level exp b hc, levelsPassed_step level exp hc]
    refine ⟨hrec.1, hrec.2.1, ?_⟩
    have hsum := hrec.2.2
    rw [List.map_cons, List.sum_cons]
    omega
  | case2 level exp b hc =>
    intro h0
    rw [levelLoop_done level exp b (by omega), levelsPassed_done level exp (by omega)]
    refine ⟨h0, ?_, ?_⟩
    · show exp < (next_level_exp level : ℤ)
      omega
    · show exp = exp + (([] : List ℕ).map (fun L => (next_level_exp L : ℤ))).sum
      simp

lemma next_level_exp_strictMono (level : ℕ) (h : 1 ≤ level) :
    next_level_exp level < next_level_exp (level + 1) := by
  have hk2 : Nat.sqrt (10000 * level ^ 3) * Nat.sqrt (10000 * level ^ 3) ≤
      10000 * level ^ 3 := Nat.sqrt_le _
  have hkle : Nat.sqrt (10000 * level ^ 3) ≤ 100 * level ^ 2 := by
    have hle : 10000 * level ^ 3 ≤ (100 * level ^ 2) * (100 * level ^ 2) := by nlinarith
    calc Nat.sqrt (10000 * level ^ 3)
        ≤ Nat.sqrt ((100 * level ^ 2) * (100 * level ^ 2)) := Nat.sqrt_le_sqrt hle
      _ = 100 * level ^ 2 := Nat.sqrt_eq _
  have hsucc : (Nat.sqrt (10000 * level ^ 3) + 1) * (Nat.sqrt (10000 * level ^ 3) + 1) ≤
      10000 * (level + 1) ^ 3 := by nlinarith
  have hlt : Nat.sqrt (10000 * level ^ 3) + 1 ≤ Nat.sqrt (10000 * (level + 1) ^ 3) :=
    Nat.le_sqrt.mpr hsucc
  unfold next_level_exp
  omega

/-- C1: for every level ≥ 1, exp in [0, required(level)) and delta ≥ 0, the
level-up computation (add delta to exp, then repeatedly subtract
required(level) and increment level while the total is at least
required(level)) yields a result exp in [0, required(new level)) and
satisfies conservation: exp + delta equals the result exp plus the sum of
required(L) over all levels L passed through. -/
theorem leveling_engine_conservation (level : ℕ) (exp delta : ℤ)
    (hlevel : 1 ≤ level) (hexp0 : 0 ≤ exp)
    (hexp : exp < (next_level_exp level : ℤ)) (hdelta : 0 ≤ delta) :
    0 ≤ (levelLoop level (exp + delta) false).2.1 ∧
    (levelLoop level (exp + delta) false).2.1 <
      (next_level_exp (levelLoop level (exp + delta) false).1 : ℤ) ∧
    exp + delta = (levelLoop level (exp + delta) false).2.1 +
      ((levelsPassed level (exp + delta)).map (fun L => (next_level_exp L : ℤ))).sum :=
  levelLoop_spec level (exp + delta) false (by omega)

/-- Witness for C1 at level 1, exp 90, delta 90 (the spec's own worked
example: 180 total, one level-up consuming required(1) = 100, leaving 80). -/
theorem leveling_engine_conservation_witness :
    0 ≤ (levelLoop 1 ((90 : ℤ) + 90) false).2.1 ∧
    (levelLoop 1 ((90 : ℤ) + 90) false).2.1 <
      (next_level_exp (levelLoop 1 ((90 : ℤ) + 90) false).1 : ℤ) ∧
    (90 : ℤ) + 90 = (levelLoop 1 ((90 : ℤ) + 90) false).2.1 +
      ((levelsPassed 1 ((90 : ℤ) + 90)).map (fun L => (next_level_exp L : ℤ))).sum :=
  leveling_engine_conservation 1 90 90 (by norm_num) (by norm_num)
    (by rw [next_level_exp_one]; norm_num) (by norm_num)

/-- C9: required(level) is at least 100 (hence positive) and strictly
increasing for every level ≥ 1, required(1) = 100, and the level-up loop
terminates for arbitrarily large non-negative deltas: its embedding is a
total function and its result always satisfies the loop exit condition
(result exp strictly below the requirement of the result level). -/
theorem required_increasing_and_loop_exits (level : ℕ) (exp delta : ℤ)
    (hlevel : 1 ≤ level) (hexp : 0 ≤ exp) (hdelta : 0 ≤ delta) :
    0 < next_level_exp level ∧
    next_level_exp level < next_level_exp (level + 1) ∧
    next_level_exp 1 = 100 ∧
    (levelLoop level (exp + delta) false).2.1 <
      (next_level_exp (levelLoop level (exp + delta) false).1 : ℤ) := by
  refine ⟨?_, next_level_exp_strictMono level hlevel, next_level_exp_one, ?_⟩
  · have := next_level_exp_ge level hlevel
    omega
  · exact (levelLoop_spec level (exp + delta) false (by omega)).2.1

/-- Witness for C9 at level 1, exp 0, and the large delta 1000000. -/
theorem required_increasing_and_loop_exits_witness :
    0 < next_level_exp 1 ∧
    next_level_exp 1 < next_level_exp (1 + 1) ∧
    next_level_exp 1 = 100 ∧
    (levelLoop 1 ((0 : ℤ) + 1000000) false).2.1 <
      (next_level_exp (levelLoop 1 ((0 : ℤ) + 1000000) false).1 : ℤ) :=
  required_increasing_and_loop_exits 1 0 1000000 (by norm_num) (by norm_num) (by norm_num)

/-- C6: when the hunter's last check-in day equals today, `daily_checkin`
returns the already-checked-in message with the current streak, level and
exp, leaves the hunter unchanged, and inserts no checkin record. -/
theorem checkin_same_day_noop (h : Hunter) (today : ℤ)
    (hsame : h.last_checkin = some today) :
    daily_checkin h today =
      (h, none, CheckinResult.alreadyCheckedIn h.streak h.level h.exp) := by
  simp [daily_checkin, hsame]

/-- Witness for C6: a hunter with streak 2, level 1, exp 5 who last checked
in on day 0 checks in again on day 0. -/
theorem checkin_same_day_noop_witness :
    daily_checkin ⟨1, 5, 2, some 0⟩ 0 =
      (⟨1, 5, 2, some 0⟩, none, CheckinResult.alreadyCheckedIn 2 1 5) :=
  checkin_same_day_noop ⟨1, 5, 2, some 0⟩ 0 rfl

/-- C7: for a check-in that is not a same-day no-op, the new streak is
old streak + 1 when the prior check-in day is exactly yesterday, and 1 when
there is no prior check-in or the gap exceeds one day; the new streak is
persisted on the hunter and recorded as streak_after in the inserted
checkin record. -/
theorem checkin_streak_rule (h : Hunter) (today : ℤ)
    (hnot : h.last_checkin ≠ some today) :
    (∀ d, h.last_checkin = some d → today - d = 1 →
      (daily_checkin h today).1.streak = h.streak + 1) ∧
    (h.last_checkin = none → (daily_checkin h today).1.streak = 1) ∧
    (∀ d, h.last_checkin = some d → 1 < today - d →
      (daily_checkin h today).1.streak = 1) ∧
    (daily_checkin h today).2.1 = some ⟨today, (daily_checkin h today).1.streak⟩ := by
  refine ⟨?_, ?_, ?_, ?_⟩
  · intro d hd hgap
    have hne : some d ≠ some today := by rw [← hd]; exact hnot
    simp [daily_checkin, hd, hne, hgap]
  · intro hnone
    simp [daily_checkin, hnone]
  · intro d hd hgap
    have hne : some d ≠ some today := by rw [← hd]; exact hnot
    have hg1 : ¬ (today - d = 1) := by omega
    simp [daily_checkin, hd, hne, hg1]
  · cases hl : h.last_checkin with
    | none => simp [daily_checkin, hl]
    | some d =>
      have hne : some d ≠ some today := by rw [← hl]; exact hnot
      by_cases hgap : today - d = 1
      · simp [daily_checkin, hl, hne, hgap]
      · simp [daily_checkin, hl, hne, hgap]

/-- Witness for C7: a hunter with streak 3 who last checked in on day 0
checks in on day 1 (exactly yesterday), so the new streak is 4. -/
theorem checkin_streak_rule_witness :
    (daily_checkin ⟨1, 0, 3, some 0⟩ 1).1.streak = 3 + 1 :=
  (checkin_streak_rule ⟨1, 0, 3, some 0⟩ 1 (by decide)).1 0 rfl (by norm_num)

/-- C4: completing an already-completed quest is an idempotent no-op under
sequential calls: it returns the stored exp_reward as the reward, leaves the
hunter unchanged (no double-award of EXP), and leaves the quest unchanged. -/
theorem quest_completion_idempotent (q : Quest) (p : Bool) (hunter : Option Hunter)
    (hc : q.completed = true) :
    complete_quest (some q) p hunter =
      (some q, hunter, QuestOutcome.alreadyCompleted q.exp_reward) := by
  simp [complete_quest, hc]

/-- Witness for C4: re-completing a completed quest with reward 50 against a
freshly created hunter. -/
theorem quest_completion_idempotent_witness :
    complete_quest (some ⟨50, true⟩) true (some create_hunter) =
      (some ⟨50, true⟩, some create_hunter, QuestOutcome.alreadyCompleted 50) :=
  quest_completion_idempotent ⟨50, true⟩ true (some create_hunter) rfl

/-- C5: `complete_quest` marks the quest completed before looking up the
hunter, so when today's quest exists uncompleted but the user id fails to
parse or the hunter is absent, the 400/404 error is raised after the quest
write: the quest is left permanently completed, the hunter is untouched (no
EXP awarded), and any retry hits the already-completed no-op branch. -/
theorem quest_completed_write_precedes_hunter_lookup (q : Quest) (p : Bool)
    (hunter : Option Hunter) (hq : q.completed = false)
    (herr : p = false ∨ hunter = none) :
    (complete_quest (some q) p hunter).1 = some ⟨q.exp_reward, true⟩ ∧
    (complete_quest (some q) p hunter).2.1 = hunter ∧
    (complete_quest (some q) p hunter).2.2 =
      (if p then QuestOutcome.hunterNotFound else QuestOutcome.invalidUserId) ∧
    ∀ p2 hunter2,
      complete_quest (some ⟨q.exp_reward, true⟩) p2 hunter2 =
        (some ⟨q.exp_reward, true⟩, hunter2, QuestOutcome.alreadyCompleted q.exp_reward) := by
  have hretry : ∀ p2 hunter2,
      complete_quest (some ⟨q.exp_reward, true⟩) p2 hunter2 =
        (some ⟨q.exp_reward, true⟩, hunter2, QuestOutcome.alreadyCompleted q.exp_reward) := by
    intro p2 hunter2
    simp [complete_quest]
  rcases herr with hp | hh
  · subst hp
    exact ⟨by simp [complete_quest, hq], by simp [complete_quest, hq],
      by simp [complete_quest, hq], hretry⟩
  · subst hh
    cases p
    · exact ⟨by simp [complete_quest, hq], by simp [complete_quest, hq],
        by simp [complete_quest, hq], hretry⟩
    · exact ⟨by simp [complete_quest, hq], by simp [complete_quest, hq],
        by simp [complete_quest, hq], hretry⟩

/-- Witness for C5: an uncompleted quest with reward 50 and an unparseable
user id: the quest ends completed while the hunter state is untouched. -/
theorem quest_completed_write_precedes_hunter_lookup_witness :
    (complete_quest (some ⟨50, false⟩) false (some create_hunter)).1 = some ⟨50, true⟩ ∧
    (complete_quest (some ⟨50, false⟩) false (some create_hunter)).2.1 = some create_hunter :=
  ⟨(quest_completed_write_precedes_hunter_lookup ⟨50, false⟩ false (some create_hunter)
      rfl (Or.inl rfl)).1,
   (quest_completed_write_precedes_hunter_lookup ⟨50, false⟩ false (some create_hunter)
      rfl (Or.inl rfl)).2.1⟩

/-- C8: for every logged workout with minutes in the declared range, the EXP
awarded is the floor of minutes times the multiplier (easy 1.0, normal 1.5,
hard 2.0, any other difficulty 1.5); and the spec's worked example holds: a
fresh hunter (level 1, exp 0) logging a 60-minute normal workout gains 90
EXP and ends at level 1, exp 90, not leveled up. -/
theorem workout_exp_multiplier (minutes : ℤ) (difficulty : String)
    (hm : 1 ≤ minutes) :
    workout_exp_gain minutes difficulty =
      Int.floor ((minutes : ℚ) * specMultiplier difficulty) ∧
    log_workout create_hunter 60 "normal" =
      (⟨1, 90, 0, none⟩, ⟨60, "normal", 90⟩, ⟨90, 1, 90, false⟩) := by
  constructor
  · unfold workout_exp_gain specMultiplier
    split_ifs with h1 h2
    · simp
    · rw [show ((minutes : ℚ) * 2) = ((2 * minutes : ℤ) : ℚ) by push_cast; ring,
        Int.floor_intCast]
    · rw [Int.tdiv_eq_ediv (by omega) (by norm_num)]
      rw [show ((minutes : ℚ) * (3 / 2)) = (((3 * minutes : ℤ) : ℚ) / ((2 : ℕ) : ℚ)) by
        push_cast; ring]
      rw [Rat.floor_intCast_div_natCast]
      norm_num
  · have ht : Int.tdiv 180 2 = 90 := by decide
    have hg : workout_exp_gain 60 "normal" = 90 := by
      simp [workout_exp_gain, ht]
    have hloop : workoutLevelLoop 1 (90 : ℤ) false = (1, 90, false) := by
      rw [workoutLevelLoop_eq]
      exact levelLoop_done 1 90 false (by rw [next_level_exp_one]; norm_num)
    simp [log_workout, create_hunter, hg, hloop]

/-- Witness for C8 at minutes 60, difficulty normal. -/
theorem workout_exp_multiplier_witness :
    workout_exp_gain 60 "normal" =
      Int.floor (((60 : ℤ) : ℚ) * specMultiplier "normal") ∧
    log_workout create_hunter 60 "normal" =
      (⟨1, 90, 0, none⟩, ⟨60, "normal", 90⟩, ⟨90, 1, 90, false⟩) :=
  workout_exp_multiplier 60 "normal" (by norm_num)

/-- C10: the three inlined copies of the level-up loop in `daily_checkin`,
`log_workout` and `complete_quest` compute the same (level, exp, leveled_up)
result on every input, i.e. each refines the one common Leveling Engine
function `levelLoop`. -/
theorem inlined_loops_refine_common_engine (level : ℕ) (exp : ℤ) (b : Bool) :
    checkinLevelLoop level exp b = levelLoop level exp b ∧
    workoutLevelLoop level exp b = levelLoop level exp b ∧
    questLevelLoop level exp b = levelLoop level exp b :=
  ⟨checkinLevelLoop_eq level exp b, workoutLevelLoop_eq level exp b,
   questLevelLoop_eq level exp b⟩

/-- C2 (refuting evaluation): the invariant level ≥ 1 ∧ 0 ≤ exp <
required(level) holds of a freshly created hunter, but `log_workout` is
reachable with minutes = -1 — `LogWorkoutRequest` declares `minutes: int`
with no range bound — and then persists the hunter with exp = -1,
violating `exp ≥ 0` as declared by the `Hunter` schema in
`src/schemas.py`. -/
theorem workout_negative_minutes_breaks_invariant :
    hunterInvariant create_hunter ∧
    (log_workout create_hunter (-1) "normal").1 = ⟨1, -1, 0, none⟩ ∧
    ¬ hunterInvariant (log_workout create_hunter (-1) "normal").1 := by
  have ht : Int.tdiv (-3) 2 = -1 := by decide
  have hg : workout_exp_gain (-1) "normal" = -1 := by
    simp [workout_exp_gain, ht]
  have hloop : workoutLevelLoop 1 (-1 : ℤ) false = (1, -1, false) := by
    rw [workoutLevelLoop_eq]
    exact levelLoop_done 1 (-1) false (by rw [next_level_exp_one]; norm_num)
  have hres : (log_workout create_hunter (-1) "normal").1 = ⟨1, -1, 0, none⟩ := by
    simp [log_workout, create_hunter, hg, hloop]
  refine ⟨?_, hres, ?_⟩
  · refine ⟨by norm_num [create_hunter], by norm_num [create_hunter], ?_⟩
    rw [show create_hunter.level = 1 from rfl, next_level_exp_one]
    norm_num [create_hunter]
  · rw [hres]
    simp [hunterInvariant]

/-- C3 (refuting evaluation): a workout request with minutes = 301 is
outside the range declared by the `Workout` schema in `src/schemas.py`,
yet the endpoint's request model `LogWorkoutRequest` does not bound
`minutes`, so no validation failure occurs: the handler runs, awards
451 EXP, persists the hunter at level 3 with exp 69, and inserts a workout
record with minutes = 301. -/
theorem workout_out_of_range_minutes_processed :
    ¬ workoutMinutesValid 301 ∧
    log_workout create_hunter 301 "normal" =
      (⟨3, 69, 0, none⟩, ⟨301, "normal", 451⟩, ⟨451, 3, 69, true⟩) := by
  constructor
  · norm_num [workoutMinutesValid]
  · have ht : Int.tdiv 903 2 = 451 := by decide
    have hg : workout_exp_gain 301 "normal" = 451 := by
      simp [workout_exp_gain, ht]
    have hloop : workoutLevelLoop 1 (451 : ℤ) false = (3, 69, true) := by
      rw [workoutLevelLoop_eq]
      rw [levelLoop_step 1 451 false (by rw [next_level_exp_one]; norm_num)]
      rw [next_level_exp_one]
      norm_num
      rw [levelLoop_step 2 351 true (by rw [next_level_exp_two]; norm_num)]
      rw [next_level_exp_two]
      norm_num
      exact levelLoop_done 3 69 true (by rw [next_level_exp_three]; norm_num)
    simp [log_workout, create_hunter, hg, hloop]

end SoloLeveling
